import Mathlib

/-!
Verification of the `cider` crate (a data-modeling layer for Apple web
services) against its specification.  The Rust source is shallowly embedded:
each Rust type becomes a Lean structure or inductive, each constructor or
method a Lean function, and the behaviour of `serde` derive serialization and
deserialization is modelled explicitly (field order from declaration order,
`skip_serializing_if = "Option::is_none"` as conditional omission, `Option`
fields optional on deserialization, unknown fields ignored, duplicate fields
rejected).
-/

namespace Cider

/-- JSON values, modelling the `serde_json` documents that the derived
deserializers consume. -/
inductive Json where
  | null : Json
  | jbool (b : Bool) : Json
  | num (v : Int) : Json
  | str (s : String) : Json
  | arr (elements : List Json) : Json
  | obj (members : List (String × Json)) : Json

/-- Hexadecimal digit used by the JSON string escaper (lowercase, as
`serde_json` emits). -/
def hexDigitChar (v : Nat) : Char :=
  if v < 10 then Char.ofNat (48 + v) else Char.ofNat (87 + v)

/-- Four-digit hexadecimal rendering used for `\u00XX` escapes. -/
def hex4 (v : Nat) : String :=
  String.mk [hexDigitChar (v / 4096 % 16), hexDigitChar (v / 256 % 16),
    hexDigitChar (v / 16 % 16), hexDigitChar (v % 16)]

/-- One character of a JSON string, escaped as `serde_json` escapes it. -/
def escapeChar (c : Char) : String :=
  if c = '"' then "\\\""
  else if c = '\\' then "\\\\"
  else if c = '\x08' then "\\b"
  else if c = '\x0c' then "\\f"
  else if c = '\n' then "\\n"
  else if c = '\r' then "\\r"
  else if c = '\t' then "\\t"
  else if c.toNat < 32 then "\\u" ++ hex4 c.toNat
  else String.singleton c

/-- A JSON string literal: quoted and escaped. -/
def jsonStr (s : String) : String :=
  "\"" ++ String.join (s.data.map escapeChar) ++ "\""

/-- A JSON rendering of an unsigned integer (`u64` in the source). -/
def jsonNum (v : Nat) : String :=
  toString v

/-- Compact rendering of a JSON object from an ordered list of members whose
values are already rendered; models `serde_json::to_string` on the structs
below. -/
def renderObj (members : List (String × String)) : String :=
  "\x7b" ++ String.intercalate "," (members.map fun kv => jsonStr kv.1 ++ ":" ++ kv.2) ++ "\x7d"

/-- Embeds `TeamId` from `src/lib.rs`: the 10 character team ID used as the
issuer value of a JWT (an opaque borrowed string in the source). -/
structure TeamId where
  val : String
deriving DecidableEq

/-- Embeds the `DurationSinceEpoch` trait from `src/time.rs` by the pair of
observations a time source provides: seconds and milliseconds since the Unix
epoch (both `u64` in the source). -/
structure DurationSinceEpoch where
  as_secs : Nat
  as_millis : Nat
deriving DecidableEq

/-- Embeds `KeyId` from `src/jwt.rs`: an opaque string identifying a signing
key. -/
structure KeyId where
  val : String
deriving DecidableEq

/-- Embeds the `Algorithm` enum from `src/jwt.rs`. -/
inductive Algorithm where
  | Es256 : Algorithm
  | Rs256 : Algorithm
deriving DecidableEq

/-- Embeds `Algorithm::as_str` from `src/jwt.rs`. -/
def Algorithm.as_str : Algorithm → String
  | .Es256 => "ES256"
  | .Rs256 => "RS256"

/-- Embeds `ParseAlgorithmError` from `src/jwt.rs`. -/
inductive ParseAlgorithmError where
  | UnknownAlgorithm : ParseAlgorithmError
deriving DecidableEq

/-- Embeds `<Algorithm as FromStr>::from_str` from `src/jwt.rs`: the match on
the input string compares byte-for-byte against the two registered tags. -/
def Algorithm.from_str (s : String) : Except ParseAlgorithmError Algorithm :=
  if s = "ES256" then Except.ok Algorithm.Es256
  else if s = "RS256" then Except.ok Algorithm.Rs256
  else Except.error ParseAlgorithmError.UnknownAlgorithm

/-- Embeds the `Jwk` struct from `src/jwt.rs`: every field but `kty` has type
`Option<String>`. -/
structure Jwk where
  kty : String
  use : Option String
  alg : Option String
  kid : Option String
  crv : Option String
  x : Option String
  y : Option String
  e : Option String
  n : Option String
deriving DecidableEq

/-- Embeds the `KeyData` enum from `src/jwt.rs` (raw PKCS8 bytes or a
structured JWK). -/
inductive KeyData where
  | Pkcs8 (bytes : List Nat) : KeyData
  | Jwk (key : Jwk) : KeyData
deriving DecidableEq

/-- Embeds the `Key` struct from `src/jwt.rs`. -/
structure Key where
  id : KeyId
  alg : Algorithm
  data : KeyData
deriving DecidableEq

/-- Embeds `Key::new` from `src/jwt.rs`. -/
def Key.new (id : KeyId) (alg : Algorithm) (data : KeyData) : Key :=
  { id := id, alg := alg, data := data }

/-- Embeds the `Header` struct from `src/jwt.rs` (two borrowed string
fields, declared `alg` then `kid`). -/
structure Header where
  alg : String
  kid : String
deriving DecidableEq

/-- Embeds `Header::new` from `src/jwt.rs`. -/
def Header.new (key : Key) : Header :=
  { alg := key.alg.as_str, kid := key.id.val }

/-- Serialization of `Header` as an ordered member list: the derived
`Serialize` in `src/jwt.rs` emits fields in declaration order, and the manual
impl in `src/crypto/jwt.rs` emits `alg` then `kid` explicitly. -/
def Header.toJsonFields (h : Header) : List (String × String) :=
  [("alg", jsonStr h.alg), ("kid", jsonStr h.kid)]

/-- Compact JSON text of a serialized `Header`. -/
def Header.toJsonString (h : Header) : String :=
  renderObj h.toJsonFields

/-- Embeds the `Claims` struct from `src/jwt.rs`. -/
structure Claims where
  iss : String
  iat : Nat
  exp : Option Nat
  aud : Option String
  sub : Option String
deriving DecidableEq

/-- Embeds `Claims::new` from `src/jwt.rs` (identical in
`src/crypto/jwt.rs`): the constructor takes a team id and a time source and
fixes the optional claims to `None`. -/
def Claims.new (team_id : TeamId) (duration_since_epoch : DurationSinceEpoch) : Claims :=
  { iss := team_id.val
    iat := duration_since_epoch.as_secs
    exp := none
    aud := none
    sub := none }

/-- One optional numeric member under `skip_serializing_if = "Option::is_none"`:
emitted only when present. -/
def optNatField (name : String) : Option Nat → List (String × String)
  | none => []
  | some v => [(name, jsonNum v)]

/-- One optional string member under `skip_serializing_if = "Option::is_none"`:
emitted only when present. -/
def optStrField (name : String) : Option String → List (String × String)
  | none => []
  | some s => [(name, jsonStr s)]

/-- Serialization of `Claims` as an ordered member list, following the derive
on `src/jwt.rs`: `iss` and `iat` unconditionally, then `exp`, `aud`, `sub`
each skipped when `None`. -/
def Claims.toJsonFields (c : Claims) : List (String × String) :=
  [("iss", jsonStr c.iss), ("iat", jsonNum c.iat)]
    ++ optNatField "exp" c.exp ++ optStrField "aud" c.aud ++ optStrField "sub" c.sub

/-- Compact JSON text of a serialized `Claims`. -/
def Claims.toJsonString (c : Claims) : String :=
  renderObj c.toJsonFields

/-- Serialization of `Jwk` as an ordered member list, following the derive on
`src/jwt.rs`: `kty` unconditionally, every other field skipped when `None`. -/
def Jwk.toJsonFields (j : Jwk) : List (String × String) :=
  [("kty", jsonStr j.kty)]
    ++ optStrField "use" j.use ++ optStrField "alg" j.alg ++ optStrField "kid" j.kid
    ++ optStrField "crv" j.crv ++ optStrField "x" j.x ++ optStrField "y" j.y
    ++ optStrField "e" j.e ++ optStrField "n" j.n

/-- The field names the derived `Deserialize` for `Jwk` recognizes. -/
def knownJwkFields : List String :=
  ["kty", "use", "alg", "kid", "crv", "x", "y", "e", "n"]

/-- Deserialization of a `String` field value. -/
def parseString : Json → Except String String
  | .str s => Except.ok s
  | _ => Except.error "invalid type"

/-- Deserialization of an `Option<String>` field value: `serde` accepts
`null` as `None`. -/
def parseOptString : Json → Except String (Option String)
  | .null => Except.ok none
  | .str s => Except.ok (some s)
  | _ => Except.error "invalid type"

/-- Partial state of the derived `Deserialize` visitor for `Jwk` while it
walks the members of the input object. -/
structure JwkBuilder where
  kty : Option String := none
  use : Option String := none
  alg : Option String := none
  kid : Option String := none
  crv : Option String := none
  x : Option String := none
  y : Option String := none
  e : Option String := none
  n : Option String := none

/-- Stores one recognized member into the visitor state, checking the value's
type as the derived `Deserialize` does. -/
def JwkBuilder.setField (b : JwkBuilder) (k : String) (v : Json) : Except String JwkBuilder :=
  if k = "kty" then do
    let s ← parseString v
    Except.ok { b with kty := some s }
  else if k = "use" then do
    let o ← parseOptString v
    Except.ok { b with use := o }
  else if k = "alg" then do
    let o ← parseOptString v
    Except.ok { b with alg := o }
  else if k = "kid" then do
    let o ← parseOptString v
    Except.ok { b with kid := o }
  else if k = "crv" then do
    let o ← parseOptString v
    Except.ok { b with crv := o }
  else if k = "x" then do
    let o ← parseOptString v
    Except.ok { b with x := o }
  else if k = "y" then do
    let o ← parseOptString v
    Except.ok { b with y := o }
  else if k = "e" then do
    let o ← parseOptString v
    Except.ok { b with e := o }
  else if k = "n" then do
    let o ← parseOptString v
    Except.ok { b with n := o }
  else Except.ok b

/-- The member walk of the derived `Deserialize` for `Jwk`: recognized fields
are stored (a repeated recognized field is a `duplicate field` error), unknown
fields are ignored, and at the end the required `kty` must have been seen
while each absent `Option` field defaults to `None`. -/
def Jwk.fromMembers : List (String × Json) → List String → JwkBuilder → Except String Jwk
  | [], _, b =>
    match b.kty with
    | some kty =>
      Except.ok { kty := kty, use := b.use, alg := b.alg, kid := b.kid, crv := b.crv,
                  x := b.x, y := b.y, e := b.e, n := b.n }
    | none => Except.error "missing field kty"
  | (k, v) :: rest, seen, b =>
    if k ∈ knownJwkFields then
      if k ∈ seen then Except.error ("duplicate field " ++ k)
      else
        match JwkBuilder.setField b k v with
        | Except.ok b' => Jwk.fromMembers rest (k :: seen) b'
        | Except.error msg => Except.error msg
    else Jwk.fromMembers rest seen b

/-- Deserialization of a `Jwk` from a JSON value (derived `Deserialize` on
`src/jwt.rs`): the input must be an object. -/
def Jwk.fromJson : Json → Except String Jwk
  | .obj members => Jwk.fromMembers members [] {}
  | _ => Except.error "invalid type"

/-- Embeds the `JwkSet` struct from `src/jwt.rs`. -/
structure JwkSet where
  keys : List Jwk
deriving DecidableEq

/-- The member walk of the derived `Deserialize` for `JwkSet`: the single
required field `keys` holds an array of `Jwk`. -/
def JwkSet.fromMembers : List (String × Json) → Option (List Jwk) → Except String JwkSet
  | [], none => Except.error "missing field keys"
  | [], some ks => Except.ok { keys := ks }
  | (k, v) :: rest, acc =>
    if k = "keys" then
      match acc with
      | some _ => Except.error "duplicate field keys"
      | none =>
        match v with
        | .arr xs =>
          match xs.mapM Jwk.fromJson with
          | Except.ok ks => JwkSet.fromMembers rest (some ks)
          | Except.error msg => Except.error msg
        | _ => Except.error "invalid type"
    else JwkSet.fromMembers rest acc

/-- Deserialization of a `JwkSet` from a JSON value. -/
def JwkSet.fromJson : Json → Except String JwkSet
  | .obj members => JwkSet.fromMembers members none
  | _ => Except.error "invalid type"

/-- Modelled from the spec: the lenient algorithm parser is described by the
spec as belonging to a historical revision of `Algorithm` that is not among
the source files; per the spec it never fails and "unrecognized strings map
to an unknown variant that retains the original text". -/
inductive LenientAlgorithm where
  | Es256 : LenientAlgorithm
  | Rs256 : LenientAlgorithm
  | Unknown (s : String) : LenientAlgorithm
deriving DecidableEq

/-- Modelled from the spec: total parse into `LenientAlgorithm`; known tags
are compared byte-for-byte, anything else is retained in the `Unknown`
variant. -/
def LenientAlgorithm.from_str (s : String) : LenientAlgorithm :=
  if s = "ES256" then LenientAlgorithm.Es256
  else if s = "RS256" then LenientAlgorithm.Rs256
  else LenientAlgorithm.Unknown s

/-- Modelled from the spec: string form of a `LenientAlgorithm`; the
`Unknown` variant returns the retained text unmodified. -/
def LenientAlgorithm.as_str : LenientAlgorithm → String
  | .Es256 => "ES256"
  | .Rs256 => "RS256"
  | .Unknown s => s

/-- Embeds `Container` from `src/cloudkit.rs`. -/
structure Container where
  val : String
deriving DecidableEq

/-- Embeds the CloudKit `Env` enum from `src/cloudkit.rs`. -/
inductive Env where
  | Dev : Env
  | Prod : Env
deriving DecidableEq

/-- Embeds `Env::as_str` from `src/cloudkit.rs`. -/
def Env.as_str : Env → String
  | .Dev => "development"
  | .Prod => "production"

/-- Embeds `DbBasePath` from `src/cloudkit.rs`. -/
structure DbBasePath where
  container : Container
  env : Env
deriving DecidableEq

/-- Embeds `DbBasePath::new` from `src/cloudkit.rs`. -/
def DbBasePath.new (container : Container) (env : Env) : DbBasePath :=
  { container := container, env := env }

/-- Embeds `DbBasePath::version` from `src/cloudkit.rs`. -/
def DbBasePath.version (_ : DbBasePath) : String :=
  "1"

/-- Embeds `DbBasePath::sub_path` from `src/cloudkit.rs`:
`format!("/database/{}/{}/{}", version, container, environment)`. -/
def DbBasePath.sub_path (p : DbBasePath) : String :=
  "/database/" ++ p.version ++ "/" ++ p.container.val ++ "/" ++ p.env.as_str

/-- Embeds the `Db` enum from `src/cloudkit.rs`; the source variant spelled
`Private` is written `Priv` because `private` is reserved in Lean. -/
inductive Db where
  | Public : Db
  | Priv : Db
  | Shared : Db
deriving DecidableEq

/-- Embeds `Db::as_str` from `src/cloudkit.rs`. -/
def Db.as_str : Db → String
  | .Public => "public"
  | .Priv => "private"
  | .Shared => "shared"

/-- Embeds `ZoneId` from `src/cloudkit.rs`. -/
structure ZoneId where
  zone_name : String
  owner_record_name : Option String
deriving DecidableEq

/-- Embeds `Record` from `src/cloudkit.rs`. -/
structure Record where
  record_name : String
  record_type : Option String
  record_change_tag : Option String
deriving DecidableEq

/-- Embeds `Operation` from `src/cloudkit.rs`. -/
structure Operation where
  operation_type : String
  record : Record
  desired_keys : Option (List String)
deriving DecidableEq

/-- Embeds `ModifyRecordsRequestBody` from `src/cloudkit/records.rs`. -/
structure ModifyRecordsRequestBody where
  operations : List Operation
  zone_id : ZoneId
  atomic : Option Bool
  desired_keys : Option (List String)
  numbers_as_strings : Option Bool
deriving DecidableEq

/-- Embeds `ModifyRecordsRequest` from `src/cloudkit/records.rs`. -/
structure ModifyRecordsRequest where
  db_base_path : DbBasePath
  db : Db
  body : ModifyRecordsRequestBody

/-- Embeds `ModifyRecordsRequest::new` from `src/cloudkit/records.rs`. -/
def ModifyRecordsRequest.new (db_base_path : DbBasePath) (db : Db)
    (body : ModifyRecordsRequestBody) : ModifyRecordsRequest :=
  { db_base_path := db_base_path, db := db, body := body }

/-- Embeds `<ModifyRecordsRequest as Request>::sub_path` from
`src/cloudkit/records.rs`: the base path followed by `/`, the database
segment, and `/records/modify`. -/
def ModifyRecordsRequest.sub_path (r : ModifyRecordsRequest) : String :=
  r.db_base_path.sub_path ++ "/" ++ r.db.as_str ++ "/records/modify"

/-- Embeds `ValidationReq` from `src/device_check.rs`. -/
structure ValidationReq where
  device_token : String
  transaction_id : String
  timestamp : Nat
deriving DecidableEq

/-- Embeds `ValidationReq::new` from `src/device_check.rs`: the token and
transaction id are copied unchanged and the timestamp is the time source's
milliseconds since the epoch. -/
def ValidationReq.new (device_token : String) (transaction_id : String)
    (duration_since_epoch : DurationSinceEpoch) : ValidationReq :=
  { device_token := device_token
    transaction_id := transaction_id
    timestamp := duration_since_epoch.as_millis }

end Cider

namespace Cider

theorem mem_optStrField (name name' : String) (o : Option String) :
    (∃ x, (name, x) ∈ optStrField name' o) ↔ (name = name' ∧ o.isSome = true) := by
  cases o <;> simp [optStrField]

theorem mem_optNatField (name name' : String) (o : Option Nat) :
    (∃ x, (name, x) ∈ optNatField name' o) ↔ (name = name' ∧ o.isSome = true) := by
  cases o <;> simp [optNatField]

theorem setField_str_ok (b : JwkBuilder) (k : String) (hk : k ∈ knownJwkFields) (s : String) :
    ∃ b', JwkBuilder.setField b k (Json.str s) = Except.ok b' ∧
      b'.kty = (if k = "kty" then some s else b.kty) := by
  simp only [knownJwkFields, List.mem_cons, List.not_mem_nil, or_false] at hk
  rcases hk with rfl | rfl | rfl | rfl | rfl | rfl | rfl | rfl | rfl <;>
    exact ⟨_, rfl, rfl⟩

theorem fromMembers_isOk :
    ∀ (members : List (String × Json)) (seen : List String) (b : JwkBuilder),
      (∀ kv ∈ members, kv.1 ∉ seen) →
      (members.map Prod.fst).Nodup →
      (∀ kv ∈ members, kv.1 ∈ knownJwkFields → ∃ s, kv.2 = Json.str s) →
      (b.kty.isSome = true ∨ "kty" ∈ members.map Prod.fst) →
      ∃ j, Jwk.fromMembers members seen b = Except.ok j := by
  intro members
  induction members with
  | nil =>
    intro seen b _ _ _ hkty
    simp only [List.map_nil, List.not_mem_nil, or_false] at hkty
    rcases hb : b.kty with _ | kty
    · rw [hb] at hkty; simp at hkty
    · refine ⟨{ kty := kty, use := b.use, alg := b.alg, kid := b.kid, crv := b.crv,
                x := b.x, y := b.y, e := b.e, n := b.n }, ?_⟩
      simp [Jwk.fromMembers, hb]
  | cons kv rest ih =>
    obtain ⟨k, v⟩ := kv
    intro seen b hseen hnodup hty hkty
    rw [List.map_cons] at hnodup
    have hnodup' : (rest.map Prod.fst).Nodup := (List.nodup_cons.mp hnodup).2
    have hknotrest : k ∉ rest.map Prod.fst := (List.nodup_cons.mp hnodup).1
    by_cases hkn : k ∈ knownJwkFields
    · have hkseen : k ∉ seen := hseen (k, v) (List.mem_cons_self _ _)
      obtain ⟨s, hs⟩ := hty (k, v) (List.mem_cons_self _ _) hkn
      simp only at hs
      subst hs
      obtain ⟨b', hb', hbk⟩ := setField_str_ok b k hkn s
      have hstep : Jwk.fromMembers ((k, Json.str s) :: rest) seen b =
          Jwk.fromMembers rest (k :: seen) b' := by
        simp [Jwk.fromMembers, hkn, hkseen, hb']
      rw [hstep]
      apply ih (k :: seen) b'
      · intro kv hkv
        have h1 : kv.1 ∉ seen := hseen kv (List.mem_cons_of_mem _ hkv)
        have h2 : kv.1 ≠ k := by
          intro h
          exact hknotrest (h ▸ List.mem_map_of_mem Prod.fst hkv)
        simp [List.mem_cons, h1, h2]
      · exact hnodup'
      · intro kv hkv hkvn
        exact hty kv (List.mem_cons_of_mem _ hkv) hkvn
      · rw [hbk]
        by_cases hk' : k = "kty"
        · subst hk'; simp
        · rw [if_neg hk']
          rcases hkty with h | h
          · exact Or.inl h
          · right
            rw [List.map_cons, List.mem_cons] at h
            rcases h with h' | h'
            · exact absurd h'.symm hk'
            · exact h'
    · have hstep : Jwk.fromMembers ((k, v) :: rest) seen b = Jwk.fromMembers rest seen b := by
        simp [Jwk.fromMembers, hkn]
      rw [hstep]
      apply ih seen b
      · intro kv hkv
        exact hseen kv (List.mem_cons_of_mem _ hkv)
      · exact hnodup'
      · intro kv hkv hkvn
        exact hty kv (List.mem_cons_of_mem _ hkv) hkvn
      · rcases hkty with h | h
        · exact Or.inl h
        · right
          rw [List.map_cons, List.mem_cons] at h
          rcases h with h' | h'
          · have hk2 : k = "kty" := by simpa using h'.symm
            subst hk2
            exact absurd (show ("kty" : String) ∈ knownJwkFields by decide) hkn
          · exact h'

end Cider

namespace Cider

/-- Claim C1: for every key, `Header::new(key)` produces a header whose `alg`
field is `key.alg().as_str()` and whose `kid` field is the key identifier
string, and its JSON serialization is exactly the two-field object with `alg`
first and `kid` second; in particular a key with id `abc123` and algorithm
ES256 serializes to the expected two-field JSON text. -/
theorem header_new_spec (key : Key) :
    (Header.new key).alg = key.alg.as_str ∧
    (Header.new key).kid = key.id.val ∧
    (Header.new key).toJsonFields =
      [("alg", jsonStr key.alg.as_str), ("kid", jsonStr key.id.val)] ∧
    ∀ data : KeyData,
      (Header.new (Key.new ⟨"abc123"⟩ Algorithm.Es256 data)).toJsonString =
        "\x7b\"alg\":\"ES256\",\"kid\":\"abc123\"\x7d" :=
  ⟨rfl, rfl, rfl, fun _ => rfl⟩

/-- Claim C2 (counterexample): the constructor `Claims::new` in the source
takes no expiry argument and always sets `exp` to `None`, so no invocation of
it can return the supplied expiry `Some(1600003600)`. -/
theorem claims_new_no_exp_argument_cex :
    (Claims.new ⟨"TEAM0123XY"⟩ ⟨1600000000, 1600000000000⟩).exp ≠ some 1600003600 := by
  decide

/-- Claim C2 (amended): for every team id and time source, `Claims::new`
returns a claim set with `iss` the team id string, `iat` the time source's
seconds, and `exp`, `aud`, `sub` all `None`; the constructor is total. -/
theorem claims_new_spec (t : TeamId) (d : DurationSinceEpoch) :
    Claims.new t d =
      { iss := t.val, iat := d.as_secs, exp := none, aud := none, sub := none } :=
  rfl

/-- Claim C3: serialized `Claims` always contain `iss` and `iat`; each
optional claim is present in the output exactly when it is set, hence an
absent optional claim is omitted entirely; the two concrete claim sets from
the spec serialize to the exact expected JSON texts. -/
theorem claims_serialization_spec (c : Claims) :
    "iss" ∈ c.toJsonFields.map Prod.fst ∧
    "iat" ∈ c.toJsonFields.map Prod.fst ∧
    ("exp" ∈ c.toJsonFields.map Prod.fst ↔ c.exp.isSome = true) ∧
    ("aud" ∈ c.toJsonFields.map Prod.fst ↔ c.aud.isSome = true) ∧
    ("sub" ∈ c.toJsonFields.map Prod.fst ↔ c.sub.isSome = true) ∧
    Claims.toJsonString (Claims.new ⟨"TEAM0123XY"⟩ ⟨1600000000, 1600000000000⟩) =
      "\x7b\"iss\":\"TEAM0123XY\",\"iat\":1600000000\x7d" ∧
    ("exp", jsonNum 1600003600) ∈
      Claims.toJsonFields
        { Claims.new ⟨"TEAM0123XY"⟩ ⟨1600000000, 1600000000000⟩ with exp := some 1600003600 } ∧
    Claims.toJsonString
        { Claims.new ⟨"TEAM0123XY"⟩ ⟨1600000000, 1600000000000⟩ with exp := some 1600003600 } =
      "\x7b\"iss\":\"TEAM0123XY\",\"iat\":1600000000,\"exp\":1600003600\x7d" := by
  refine ⟨?_, ?_, ?_, ?_, ?_, by decide, by decide, by decide⟩ <;>
    simp [Claims.toJsonFields, mem_optNatField, mem_optStrField]

/-- Claim C4: both known algorithm strings parse with `Algorithm::from_str`
and `as_str` returns them exactly; `as_str` is the exact inverse of
`from_str` on the known variants. -/
theorem algorithm_round_trip :
    Algorithm.from_str "ES256" = Except.ok Algorithm.Es256 ∧
    Algorithm.from_str "RS256" = Except.ok Algorithm.Rs256 ∧
    Algorithm.as_str Algorithm.Es256 = "ES256" ∧
    Algorithm.as_str Algorithm.Rs256 = "RS256" ∧
    ∀ a : Algorithm, Algorithm.from_str a.as_str = Except.ok a :=
  ⟨rfl, rfl, rfl, rfl, fun a => by cases a <;> rfl⟩

/-- Claim C5: `Algorithm::from_str` returns `Err(UnknownAlgorithm)` exactly
when the input is not byte-for-byte one of the registered constants; in
particular the lower-cased string `es256` fails to parse. -/
theorem algorithm_from_str_strict (s : String) :
    (Algorithm.from_str s = Except.error ParseAlgorithmError.UnknownAlgorithm ↔
      ¬(s = "ES256" ∨ s = "RS256")) ∧
    Algorithm.from_str "es256" = Except.error ParseAlgorithmError.UnknownAlgorithm := by
  constructor
  · unfold Algorithm.from_str
    split_ifs with h1 h2
    · simp [h1]
    · simp [h1, h2]
    · simp [h1, h2]
  · rfl

/-- Claim C5 witness: the strict parser rejects the concrete unregistered
string `es256`. -/
theorem algorithm_from_str_strict_witness :
    Algorithm.from_str "es256" = Except.error ParseAlgorithmError.UnknownAlgorithm :=
  (algorithm_from_str_strict "es256").1.mpr (by decide)

/-- Claim C6: the lenient algorithm parser never fails on an unrecognized
string; it returns the `Unknown` variant retaining the input, whose `as_str`
returns the input unmodified. -/
theorem lenient_algorithm_spec (s : String) (h : ¬(s = "ES256" ∨ s = "RS256")) :
    LenientAlgorithm.from_str s = LenientAlgorithm.Unknown s ∧
    (LenientAlgorithm.from_str s).as_str = s := by
  have h1 : ¬s = "ES256" := fun hh => h (Or.inl hh)
  have h2 : ¬s = "RS256" := fun hh => h (Or.inr hh)
  have hf : LenientAlgorithm.from_str s = LenientAlgorithm.Unknown s := by
    unfold LenientAlgorithm.from_str
    rw [if_neg h1, if_neg h2]
  exact ⟨hf, by rw [hf]; rfl⟩

/-- Claim C6 witness: the concrete unrecognized string `foo256` is retained
byte-for-byte by the lenient parser. -/
theorem lenient_algorithm_spec_witness :
    LenientAlgorithm.from_str "foo256" = LenientAlgorithm.Unknown "foo256" ∧
    (LenientAlgorithm.from_str "foo256").as_str = "foo256" :=
  lenient_algorithm_spec "foo256" (by decide)

/-- Claim C7: `Header::new` and `Claims::new` are deterministic in their
declared inputs only: claims built from time sources agreeing on seconds are
equal with byte-identical serialization (no dependence on any other state of
the time source), and headers built from keys agreeing on id and algorithm
are equal with byte-identical serialization (no dependence on the key
material). -/
theorem builders_deterministic (t : TeamId) (d d' : DurationSinceEpoch) (k k' : Key)
    (hsec : d.as_secs = d'.as_secs) (hid : k.id = k'.id) (halg : k.alg = k'.alg) :
    Claims.new t d = Claims.new t d' ∧
    (Claims.new t d).toJsonString = (Claims.new t d').toJsonString ∧
    Header.new k = Header.new k' ∧
    (Header.new k).toJsonString = (Header.new k').toJsonString := by
  have hc : Claims.new t d = Claims.new t d' := by
    simp [Claims.new, hsec]
  have hh : Header.new k = Header.new k' := by
    simp [Header.new, hid, halg]
  exact ⟨hc, by rw [hc], hh, by rw [hh]⟩

/-- Claim C7 witness: two time sources differing in milliseconds but agreeing
on seconds, and two keys differing in key material, yield identical claims
and headers. -/
theorem builders_deterministic_witness :
    Claims.new ⟨"TEAM0123XY"⟩ ⟨1600000000, 1600000000123⟩ =
      Claims.new ⟨"TEAM0123XY"⟩ ⟨1600000000, 1600000000999⟩ ∧
    (Claims.new ⟨"TEAM0123XY"⟩ ⟨1600000000, 1600000000123⟩).toJsonString =
      (Claims.new ⟨"TEAM0123XY"⟩ ⟨1600000000, 1600000000999⟩).toJsonString ∧
    Header.new (Key.new ⟨"abc123"⟩ Algorithm.Es256 (KeyData.Pkcs8 [1])) =
      Header.new (Key.new ⟨"abc123"⟩ Algorithm.Es256 (KeyData.Pkcs8 [2])) ∧
    (Header.new (Key.new ⟨"abc123"⟩ Algorithm.Es256 (KeyData.Pkcs8 [1]))).toJsonString =
      (Header.new (Key.new ⟨"abc123"⟩ Algorithm.Es256 (KeyData.Pkcs8 [2]))).toJsonString :=
  builders_deterministic ⟨"TEAM0123XY"⟩ ⟨1600000000, 1600000000123⟩ ⟨1600000000, 1600000000999⟩
    (Key.new ⟨"abc123"⟩ Algorithm.Es256 (KeyData.Pkcs8 [1]))
    (Key.new ⟨"abc123"⟩ Algorithm.Es256 (KeyData.Pkcs8 [2])) rfl rfl rfl

/-- Claim C8: deserializing a JSON object into a `Jwk` never fails solely
because an optional field is absent (any object with distinct keys whose
recognized fields are strings and which contains `kty` parses); a document
with only `kty`, `n`, `e` parses, also inside a `JwkSet`; and on
re-serialization every optional field is present exactly when set, so absent
fields stay absent. -/
theorem jwk_optional_fields_spec :
    (∀ members : List (String × Json),
        (members.map Prod.fst).Nodup →
        (∀ kv ∈ members, kv.1 ∈ knownJwkFields → ∃ s, kv.2 = Json.str s) →
        "kty" ∈ members.map Prod.fst →
        ∃ j, Jwk.fromJson (Json.obj members) = Except.ok j) ∧
    Jwk.fromJson (Json.obj [("kty", Json.str "RSA"), ("n", Json.str "m0"), ("e", Json.str "AQAB")]) =
      Except.ok { kty := "RSA", use := none, alg := none, kid := none, crv := none,
                  x := none, y := none, e := some "AQAB", n := some "m0" } ∧
    JwkSet.fromJson (Json.obj [("keys", Json.arr [Json.obj [("kty", Json.str "RSA"),
        ("n", Json.str "m0"), ("e", Json.str "AQAB")]])]) =
      Except.ok { keys := [{ kty := "RSA", use := none, alg := none, kid := none,
                             crv := none, x := none, y := none, e := some "AQAB",
                             n := some "m0" }] } ∧
    ∀ j : Jwk,
      "kty" ∈ j.toJsonFields.map Prod.fst ∧
      ("use" ∈ j.toJsonFields.map Prod.fst ↔ j.use.isSome = true) ∧
      ("alg" ∈ j.toJsonFields.map Prod.fst ↔ j.alg.isSome = true) ∧
      ("kid" ∈ j.toJsonFields.map Prod.fst ↔ j.kid.isSome = true) ∧
      ("crv" ∈ j.toJsonFields.map Prod.fst ↔ j.crv.isSome = true) ∧
      ("x" ∈ j.toJsonFields.map Prod.fst ↔ j.x.isSome = true) ∧
      ("y" ∈ j.toJsonFields.map Prod.fst ↔ j.y.isSome = true) ∧
      ("e" ∈ j.toJsonFields.map Prod.fst ↔ j.e.isSome = true) ∧
      ("n" ∈ j.toJsonFields.map Prod.fst ↔ j.n.isSome = true) := by
  refine ⟨?_, by rfl, by rfl, ?_⟩
  · intro members hnodup hty hkty
    exact fromMembers_isOk members [] {} (by simp) hnodup hty (Or.inr hkty)
  · intro j
    refine ⟨?_, ?_, ?_, ?_, ?_, ?_, ?_, ?_, ?_⟩ <;>
      simp [Jwk.toJsonFields, mem_optStrField]

/-- Claim C8 witness: a concrete object carrying only `kty` and `crv` (an
optional field), in that order with an unknown field in between, parses. -/
theorem jwk_optional_fields_spec_witness :
    ∃ j, Jwk.fromJson (Json.obj [("kty", Json.str "EC"), ("ext", Json.jbool true),
      ("crv", Json.str "P-256")]) = Except.ok j :=
  jwk_optional_fields_spec.1
    [("kty", Json.str "EC"), ("ext", Json.jbool true), ("crv", Json.str "P-256")]
    (by decide)
    (by
      intro kv hkv hkn
      simp only [List.mem_cons, List.not_mem_nil, or_false] at hkv
      rcases hkv with rfl | rfl | rfl
      · exact ⟨"EC", rfl⟩
      · exact absurd hkn (by decide)
      · exact ⟨"P-256", rfl⟩)
    (by decide)

/-- Claim C9: the sub-path of a CloudKit modify-records request is exactly
`/database/1/<container>/<environment>/<db>/records/modify`, with the
environment rendered `development` or `production`. -/
theorem modify_records_sub_path_spec (c : String) (env : Env) (db : Db)
    (body : ModifyRecordsRequestBody) :
    (ModifyRecordsRequest.new (DbBasePath.new ⟨c⟩ env) db body).sub_path =
      "/database/1/" ++ c ++ "/" ++ env.as_str ++ "/" ++ db.as_str ++ "/records/modify" := by
  simp only [ModifyRecordsRequest.sub_path, ModifyRecordsRequest.new, DbBasePath.sub_path,
    DbBasePath.new, DbBasePath.version, String.append_assoc]
  rfl

/-- Claim C10: `ValidationReq::new` stores the device token and transaction
id unchanged and sets the timestamp to the time source's milliseconds since
the epoch, which differs from the seconds used for the JWT `iat` claim
whenever the two observations differ. -/
theorem validation_req_new_spec (dt tx : String) (d : DurationSinceEpoch) :
    ValidationReq.new dt tx d =
      { device_token := dt, transaction_id := tx, timestamp := d.as_millis } ∧
    (ValidationReq.new dt tx d).timestamp = d.as_millis ∧
    ∀ t : TeamId, d.as_millis ≠ d.as_secs →
      (ValidationReq.new dt tx d).timestamp ≠ (Claims.new t d).iat := by
  refine ⟨rfl, rfl, fun t hne => ?_⟩
  simpa [ValidationReq.new, Claims.new] using hne

/-- Claim C10 witness: at a concrete time source the DeviceCheck timestamp is
the milliseconds value and differs from the claims `iat` seconds value. -/
theorem validation_req_new_spec_witness :
    (ValidationReq.new "device-token" "tx-id" ⟨1600000000, 1600000000123⟩).timestamp ≠
      (Claims.new ⟨"TEAM0123XY"⟩ ⟨1600000000, 1600000000123⟩).iat :=
  (validation_req_new_spec "device-token" "tx-id" ⟨1600000000, 1600000000123⟩).2.2
    ⟨"TEAM0123XY"⟩ (by decide)

end Cider
